import Mathlib

/-!
Shallow embedding of the Sensortherm METIS serial driver
(`src/sensortherm/metis.py`): the command encoder, the primitive
hex decoders, the status-byte decoders, and the buffer record decoder,
together with theorems settling the specification claims.

Bytes are modelled as `Nat` (their 8-bit value), byte strings as
`List Nat`.  Fallible Python code is modelled with `Option`/`Except`;
`PyError` enumerates the exceptions the embedded code can raise.
-/

/-- ASCII bytes Python's `int(str, base)` conversion strips as whitespace:
space and 0x09–0x0D. -/
def isSpace (c : Nat) : Bool :=
  decide (c = 32) || (decide (9 ≤ c) && decide (c ≤ 13))

/-- ASCII hexadecimal digit: `0`–`9`, `A`–`F`, `a`–`f`. -/
def isHexDigitB (c : Nat) : Bool :=
  (decide (48 ≤ c) && decide (c ≤ 57)) || (decide (65 ≤ c) && decide (c ≤ 70)) ||
    (decide (97 ≤ c) && decide (c ≤ 102))

/-- Numeric value of an ASCII hex digit. -/
def hexVal (c : Nat) : Nat :=
  if c ≤ 57 then c - 48 else if c ≤ 70 then c - 55 else c - 87

/-- Validity of the tail of a base-16 digit run in Python's `int`:
zero or more groups, each an optional single underscore followed by a
hex digit. -/
def validGroups : List Nat → Bool
  | [] => true
  | [c] => isHexDigitB c
  | c1 :: c2 :: rest =>
    if c1 = 95 then isHexDigitB c2 && validGroups rest
    else isHexDigitB c1 && validGroups (c2 :: rest)

/-- Python `digitpart` for base 16: a hex digit followed by groups. -/
def validDigitPart : List Nat → Bool
  | [] => false
  | c :: rest => isHexDigitB c && validGroups rest

/-- What may follow a `0x`/`0X` prefix in Python's `int(_, 16)`:
`([_] hexdigit)+`. -/
def validAfterHexTag (l : List Nat) : Bool :=
  !l.isEmpty && validGroups l

/-- Base-16 value of a digit run, skipping underscore separators. -/
def hexDigitsVal (l : List Nat) : Nat :=
  l.foldl (fun acc c => if c = 95 then acc else acc * 16 + hexVal c) 0

/-- Strip leading and trailing whitespace, as Python's `int` does. -/
def stripPySpace (s : List Nat) : List Nat :=
  ((s.dropWhile isSpace).reverse.dropWhile isSpace).reverse

/-- Consume an optional leading sign, returning the sign and the rest. -/
def splitSign (t : List Nat) : Int × List Nat :=
  if t.head? = some 45 then (-1, t.tail)
  else if t.head? = some 43 then (1, t.tail)
  else (1, t)

/-- Python's `int(s, 16)` on an ASCII character sequence: optional
surrounding whitespace, optional sign, optional `0x`/`0X` tag, then a
nonempty underscore-separated hex digit run.  `none` models `ValueError`. -/
def pyInt16 (s : List Nat) : Option Int :=
  let t := stripPySpace s
  let sg := (splitSign t).1
  let u := (splitSign t).2
  if u.take 2 = [48, 120] ∨ u.take 2 = [48, 88] then
    if validAfterHexTag (u.drop 2) then some (sg * (hexDigitsVal (u.drop 2) : Int))
    else none
  else
    if validDigitPart u then some (sg * (hexDigitsVal u : Int))
    else none

/-- Model of `_parse_int(data) = int(data.decode('ascii'), 16)`.  A byte ≥ 0x80
fails the ASCII decode (`UnicodeDecodeError`); otherwise Python's base-16
string conversion runs.  `none` models the raised exception. -/
def _parse_int (data : List Nat) : Option Int :=
  if data.any (fun c => decide (128 ≤ c)) then none else pyInt16 data

/-- Model of `_parse_float(data, divider) = _parse_int(data) / divider`, with the
float modelled as a rational. -/
def _parse_float (data : List Nat) (divider : ℚ) : Option ℚ :=
  (_parse_int data).map (fun i => (i : ℚ) / divider)

/-- Python's `i & (1 << k) != 0` on an `int` (two's complement view). -/
def pyBit (i : Int) (k : Nat) : Bool :=
  (i.fdiv (2 ^ k)).emod 2 = 1

/-- Model of `_parse_bits`: `_parse_int` then extraction of bits 0..7,
least-significant first, as the source's 8-tuple. -/
def _parse_bits (data : List Nat) :
    Option (Bool × Bool × Bool × Bool × Bool × Bool × Bool × Bool) :=
  (_parse_int data).map (fun i =>
    (pyBit i 0, pyBit i 1, pyBit i 2, pyBit i 3,
     pyBit i 4, pyBit i 5, pyBit i 6, pyBit i 7))

/-- The exceptions the embedded code can raise. -/
inductive PyError where
  | metisException (msg : String)
  | attributeError (attr : String)
  | valueError
  | keyError (key : String)
  | unicodeEncodeError
  deriving DecidableEq

/-- Runtime values flowing through the buffer decoder: Python `None`,
ints, floats (as rationals), and the status `TypedDict`s. -/
inductive PyValue where
  | pyNone
  | pyInt (i : Int)
  | pyFloat (q : ℚ)
  | pyDict (entries : List (String × Bool))
  deriving DecidableEq

/-- The parser `_parse_float` as a buffer-field parser (raising on bad digits). -/
def parseFloatField (divider : ℚ) (data : List Nat) : Except PyError PyValue :=
  match _parse_float data divider with
  | some q => .ok (.pyFloat q)
  | none => .error .valueError

/-- The parser `_parse_int` as a buffer-field parser (raising on bad digits). -/
def parseIntField (data : List Nat) : Except PyError PyValue :=
  match _parse_int data with
  | some i => .ok (.pyInt i)
  | none => .error .valueError

/-- Model of `_noop`: discards its input and returns `None`. -/
def noopField (_ : List Nat) : Except PyError PyValue :=
  .ok .pyNone

/-- Model of `_parse_data_status_0`: bits 0–6 name general status flags. -/
def _parse_data_status_0 (data : List Nat) : Except PyError PyValue :=
  match _parse_bits data with
  | Option.none => .error .valueError
  | some (b0, b1, b2, b3, b4, b5, b6, _) =>
    .ok (.pyDict [("fahrenheit_active", b0), ("digital_output_1", b1),
      ("digital_output_2", b2), ("digital_output_3", b3),
      ("digital_input_1", b4), ("digital_input_2", b5),
      ("digital_input_3", b6)])

/-- Model of `_parse_data_status_1`: bits 0–6 name controller status flags. -/
def _parse_data_status_1 (data : List Nat) : Except PyError PyValue :=
  match _parse_bits data with
  | Option.none => .error .valueError
  | some (b0, b1, b2, b3, b4, b5, b6, _) =>
    .ok (.pyDict [("controlling_active", b0), ("auto_tune_active", b1),
      ("auto_tune_at_controller_start", b2), ("device_ready", b3),
      ("device_hardware_error", b4), ("controller_finished_successful", b5),
      ("targeting_light_active", b6)])

/-- Model of `_parse_data_status_2`: bits 0–2 name setup flags. -/
def _parse_data_status_2 (data : List Nat) : Except PyError PyValue :=
  match _parse_bits data with
  | Option.none => .error .valueError
  | some (b0, b1, b2, _, _, _, _, _) =>
    .ok (.pyDict [("setup0", b0), ("setup1", b1), ("setup2", b2)])

/-- Model of `_parse_data_status_3`: bits 0–2 name display flags. -/
def _parse_data_status_3 (data : List Nat) : Except PyError PyValue :=
  match _parse_bits data with
  | Option.none => .error .valueError
  | some (b0, b1, b2, _, _, _, _, _) =>
    .ok (.pyDict [("display0", b0), ("display1", b1), ("display2", b2)])

/-- The `Command` enum: each member's `value` is its wire token. -/
inductive Command where
  | REFERENCE_NUMBER_SHORT
  | REFERENCE_NUMBER_LONG
  | TARGETING_LIGHT
  | SERIAL_NUMBER
  | READ_MEASURED_TEMPERATURE
  | READ_TEMPERATURE_SENSOR
  | SIGNAL_STRENGTH
  | BUFFER_MODE
  | BUFFER_READ
  deriving DecidableEq

/-- Wire token of each command (`Command.value` in the source). -/
def Command.value : Command → String
  | .REFERENCE_NUMBER_SHORT => "bn"
  | .REFERENCE_NUMBER_LONG => "bn1"
  | .TARGETING_LIGHT => "la"
  | .SERIAL_NUMBER => "sn"
  | .READ_MEASURED_TEMPERATURE => "mw"
  | .READ_TEMPERATURE_SENSOR => "tsc"
  | .SIGNAL_STRENGTH => "sl"
  | .BUFFER_MODE => "bum"
  | .BUFFER_READ => "bup"

/-- Python's `f'{n:02d}'` on a non-negative int: pad with `'0'` to at
least two characters. -/
def format02d (n : Nat) : String :=
  if n < 10 then "0" ++ toString n else toString n

/-- The full command line `f'{address:02d}{command.value}{data or ""}\r'`. -/
def commandLine (address : Nat) (command : Command) (data : Option String) : String :=
  format02d address ++ command.value ++ data.getD "" ++ "\r"

/-- The bytes of an ASCII string. -/
def strToBytes (s : String) : List Nat :=
  s.data.map Char.toNat

/-- Whether `encode('ascii')` succeeds on the string. -/
def asciiOnly (s : String) : Bool :=
  s.data.all (fun c => decide (c.toNat < 128))

/-- Device-facade state: the configured address, the log of byte strings
written to the serial stream, and the debug flag. -/
structure MetisState where
  address : Nat
  written : List (List Nat)
  debug : Bool
  deriving DecidableEq

/-- Model of `Metis.__init__`: store the address, write a bare `b'\r'` to the
stream, store the debug flag. -/
def Metis.mk (address : Nat) (written : List (List Nat)) (debug : Bool) : MetisState :=
  { address := address, written := written ++ [[13]], debug := debug }

/-- Model of `Metis._str_command`: format the line, `encode('ascii')` it (raising
`UnicodeEncodeError` on a non-ASCII argument), write it, read one
`'\r'`-terminated line (`responseLine` is what `read_until` returns),
strip the final byte, and raise `MetisException` on the literal answer
`b'no'`. -/
def str_command (st : MetisState) (command : Command) (data : Option String)
    (responseLine : List Nat) : Except PyError (List Nat) × MetisState :=
  let command_string := commandLine st.address command data
  if asciiOnly command_string then
    let st' := { st with written := st.written ++ [strToBytes command_string] }
    let answer := responseLine.dropLast
    if answer = [110, 111] then
      (.error (.metisException "Error sending command"), st')
    else
      (.ok answer, st')
  else
    (.error .unicodeEncodeError, st)

/-- Model of `Metis._int_command`: `_str_command` then `_parse_int`. -/
def int_command (st : MetisState) (command : Command) (data : Option String)
    (responseLine : List Nat) : Except PyError Int × MetisState :=
  match str_command st command data responseLine with
  | (.ok hex_string, st') =>
    match _parse_int hex_string with
    | some i => (.ok i, st')
    | Option.none => (.error .valueError, st')
  | (.error e, st') => (.error e, st')

/-- The attributes that exist on the `BufferData` class object.  The class
body contains only bare annotations, which create no class attributes, so
this list is empty. -/
def BufferData.classAttrs : List String := []

/-- Names annotated in the `BufferData` class body (annotations only:
they do not make the names readable attributes). -/
def BufferData.declaredFieldNames : List String :=
  ["measured_value", "temperature_2_colour", "temperature_1_colour_channel_1",
   "temperature_1_colour_channel_2", "signal_strength",
   "setpoint_value_at_ramp_function", "controller_manipulated_variable",
   "analog_input", "measured_temperature", "status"]

/-- Attribute lookup on the `BufferData` class object (`buffer.<name>` in
`read_buffer`, where `buffer` is the class itself). -/
def BufferData.getattr (name : String) : Except PyError PyValue :=
  if name ∈ BufferData.classAttrs then .ok .pyNone
  else .error (.attributeError name)

/-- The buffer field table of `read_buffer`, in source order: the
attribute name accessed for the `_Field.name` slot, the field's byte
width, and its parser (with the source's `(10,)` divisor arguments
already applied). -/
def bufferFieldSpecs : List (String × Nat × (List Nat → Except PyError PyValue)) :=
  [("temperature_2_colour", 4, parseFloatField 10),
   ("temperature_1_colour_channel_1", 4, parseFloatField 10),
   ("temperature_1_colour_channel_2", 4, parseFloatField 10),
   ("setpoint_value_at_ramp_function", 4, parseFloatField 10),
   ("controller_manipulated_variable", 4, parseFloatField 10),
   ("signal_strength", 4, parseFloatField 10),
   ("data_status_byte_0", 2, _parse_data_status_0),
   ("data_status_byte_1", 2, _parse_data_status_1),
   ("data_status_byte_2", 2, _parse_data_status_2),
   ("data_status_byte_3", 2, _parse_data_status_3),
   ("analog_input", 4, parseIntField),
   ("_l_unused", 4, noopField),
   ("measured_temperature", 4, parseFloatField 10),
   ("_m_unused", 4, noopField)]

/-- Building the `fields` list literal: each element evaluates
`buffer.<name>` (an attribute access on the `BufferData` class) before
the `_Field` tuple is formed, in order, propagating the first exception. -/
def buildBufferFields :
    Except PyError (List (PyValue × Nat × (List Nat → Except PyError PyValue))) :=
  bufferFieldSpecs.mapM (fun f => (BufferData.getattr f.1).map (fun v => (v, f.2.1, f.2.2)))

/-- Dictionary read `d[k]`, raising `KeyError` when absent. -/
def dictGet (d : List (String × PyValue)) (k : String) : Except PyError PyValue :=
  match d.lookup k with
  | some v => .ok v
  | Option.none => .error (.keyError k)

/-- Dictionary write `d[k] = v`. -/
def dictSet (d : List (String × PyValue)) (k : String) (v : PyValue) :
    List (String × PyValue) :=
  if (d.lookup k).isSome then d.map (fun p => if p.1 = k then (k, v) else p)
  else d ++ [(k, v)]

/-- Dictionary delete `del d[k]`, raising `KeyError` when absent. -/
def dictDel (d : List (String × PyValue)) (k : String) :
    Except PyError (List (String × PyValue)) :=
  if (d.lookup k).isSome then .ok (d.filter (fun p => !(p.1 == k)))
  else .error (.keyError k)

/-- The field loop of `read_buffer`: slice `answer[index:index+length]`
(Python slicing truncates, it never raises), run the parser, then execute
`field.name = value` — an attribute assignment on a `namedtuple`
instance, which always raises `AttributeError` since namedtuples are
immutable.  The index advance and the early `break` are therefore never
reached. -/
def bufferFieldLoop (answer : List Nat) :
    List (PyValue × Nat × (List Nat → Except PyError PyValue)) → Nat →
    Except PyError Unit
  | [], _ => .ok ()
  | field :: _, index =>
    let field_data := (answer.drop index).take field.2.1
    match field.2.2 field_data with
    | .error e => .error e
    | .ok _ => .error (.attributeError "cant set attribute")

/-- Model of `Metis.read_buffer`: issue the buffer-read command, build the field
table (evaluating the `buffer.<name>` attribute accesses), run the field
loop, then post-process the `data` dict — which the loop never populated,
since the loop stores each value into `field.name`, not into `data`. -/
def read_buffer (st : MetisState) (responseLine : List Nat) :
    Except PyError (List (String × PyValue)) × MetisState :=
  match str_command st Command.BUFFER_READ Option.none responseLine with
  | (.error e, st') => (.error e, st')
  | (.ok answer, st') =>
    match buildBufferFields with
    | .error e => (.error e, st')
    | .ok fields =>
      match bufferFieldLoop answer fields 0 with
      | .error e => (.error e, st')
      | .ok _ =>
        let data : List (String × PyValue) := []
        let step1 : Except PyError (List (String × PyValue)) :=
          if answer.length = 4 then
            match dictGet data "temperature_2_colour" with
            | .error e => .error e
            | .ok v => dictDel (dictSet data "measured_temperature" v) "temperature_2_colour"
          else .ok data
        match step1 with
        | .error e => (.error e, st')
        | .ok d1 =>
          match dictDel d1 "_l_unused" with
          | .error e => (.error e, st')
          | .ok d2 =>
            match dictDel d2 "_m_unused" with
            | .error e => (.error e, st')
            | .ok d3 => (.ok d3, st')

/-!  Specification-side definitions, written from the spec's words, for
the refinement-style claims. -/

/-- Spec-side: the zero-padded 2-digit decimal rendering of an address
in [0, 99]. -/
def pad2dec (a : Nat) : String :=
  String.mk [Nat.digitChar (a / 10), Nat.digitChar (a % 10)]

/-- Spec-side: plain base-16 value of a hex digit string (no underscore
skipping, no sign). -/
def hexValueSpec (l : List Nat) : Nat :=
  l.foldl (fun acc c => 16 * acc + hexVal c) 0

/-- Spec-side: repack 8 booleans into a byte, least-significant bit
first. -/
def repackLSB (t : Bool × Bool × Bool × Bool × Bool × Bool × Bool × Bool) : Nat :=
  (if t.1 then 1 else 0) + 2 * (if t.2.1 then 1 else 0) +
    4 * (if t.2.2.1 then 1 else 0) + 8 * (if t.2.2.2.1 then 1 else 0) +
    16 * (if t.2.2.2.2.1 then 1 else 0) + 32 * (if t.2.2.2.2.2.1 then 1 else 0) +
    64 * (if t.2.2.2.2.2.2.1 then 1 else 0) + 128 * (if t.2.2.2.2.2.2.2 then 1 else 0)

/-- Bytes Python's `int(_, 16)` can accept beyond hex digits: whitespace,
signs, underscore separators, and the `x`/`X` of a base tag. -/
def pyIntExtraChar (c : Nat) : Bool :=
  isSpace c || decide (c = 43) || decide (c = 45) || decide (c = 95) ||
    decide (c = 120) || decide (c = 88)

/-!  Helper lemmas about the primitive decoders. -/

set_option maxRecDepth 4000

/-- Characterisation of `isHexDigitB` by ASCII ranges. -/
theorem hex_ranges {c : Nat} :
    isHexDigitB c = true ↔
      (48 ≤ c ∧ c ≤ 57) ∨ (65 ≤ c ∧ c ≤ 70) ∨ (97 ≤ c ∧ c ≤ 102) := by
  simp [isHexDigitB]
  tauto

/-- A hex digit's value is below 16. -/
theorem hexVal_lt_16 {c : Nat} (h : isHexDigitB c = true) : hexVal c < 16 := by
  have hr := hex_ranges.1 h
  unfold hexVal
  split_ifs <;> omega

/-- A hex digit is not whitespace. -/
theorem hex_not_space {c : Nat} (h : isHexDigitB c = true) : isSpace c = false := by
  have hr := hex_ranges.1 h
  simp [isSpace]
  omega

/-- Dropping while a predicate that fails everywhere changes nothing. -/
theorem dropWhile_eq_self_of_all (p : Nat → Bool) :
    ∀ l : List Nat, (∀ c ∈ l, p c = false) → l.dropWhile p = l
  | [] => fun _ => rfl
  | a :: t => fun h => by
    have ha := h a (by simp)
    simp [List.dropWhile_cons, ha]

/-- Membership survives `dropWhile` for elements failing the predicate. -/
theorem mem_dropWhile_of_not (p : Nat → Bool) (c : Nat) :
    ∀ l : List Nat, c ∈ l → p c = false → c ∈ l.dropWhile p
  | [], hc, _ => absurd hc (List.not_mem_nil c)
  | a :: t, hc, hpc => by
    by_cases hpa : p a = true
    · rw [List.dropWhile_cons, if_pos hpa]
      rcases List.mem_cons.1 hc with rfl | h2
      · rw [hpa] at hpc; cases hpc
      · exact mem_dropWhile_of_not p c t h2 hpc
    · rw [List.dropWhile_cons, if_neg hpa]
      exact hc

/-- Stripping whitespace from a whitespace-free list changes nothing. -/
theorem stripPySpace_eq_self (l : List Nat) (h : ∀ c ∈ l, isSpace c = false) :
    stripPySpace l = l := by
  unfold stripPySpace
  rw [dropWhile_eq_self_of_all _ l h,
    dropWhile_eq_self_of_all _ l.reverse (fun c hc => h c (List.mem_reverse.1 hc)),
    List.reverse_reverse]

/-- Non-whitespace members survive `stripPySpace`. -/
theorem mem_stripPySpace (l : List Nat) (c : Nat) (hc : c ∈ l)
    (hs : isSpace c = false) : c ∈ stripPySpace l := by
  unfold stripPySpace
  have h1 := mem_dropWhile_of_not isSpace c l hc hs
  have h2 : c ∈ (l.dropWhile isSpace).reverse := List.mem_reverse.2 h1
  exact List.mem_reverse.2 (mem_dropWhile_of_not isSpace c _ h2 hs)

/-- Sign splitting is the identity when no sign byte leads. -/
theorem splitSign_eq_self (t : List Nat) (h45 : t.head? ≠ some 45)
    (h43 : t.head? ≠ some 43) : splitSign t = (1, t) := by
  unfold splitSign
  rw [if_neg h45, if_neg h43]

/-- Non-sign members survive the sign split. -/
theorem mem_splitSign (t : List Nat) (c : Nat) (hc : c ∈ t) (h45 : c ≠ 45)
    (h43 : c ≠ 43) : c ∈ (splitSign t).2 := by
  unfold splitSign
  cases t with
  | nil => cases hc
  | cons a t' =>
    rcases List.mem_cons.1 hc with rfl | h2
    · rw [if_neg, if_neg] <;> simp <;> omega
    · by_cases ha45 : a = 45
      · subst ha45; rw [if_pos (by simp)]; exact h2
      · by_cases ha43 : a = 43
        · subst ha43
          rw [if_neg (by simp [ha45]), if_pos (by simp)]
          exact h2
        · rw [if_neg (by simp [ha45]), if_neg (by simp [ha43])]
          exact List.mem_cons_of_mem a h2

/-- A run of hex digits is a valid group sequence. -/
theorem validGroups_of_hex : ∀ l : List Nat,
    (∀ c ∈ l, isHexDigitB c = true) → validGroups l = true
  | [] => fun _ => rfl
  | [c] => fun h => by simp [validGroups, h c (by simp)]
  | c1 :: c2 :: rest => fun h => by
    have h1 : isHexDigitB c1 = true := h c1 (by simp)
    have hne : ¬(c1 = 95) := by
      intro e; rw [e] at h1; exact absurd h1 (by decide)
    have hr : validGroups (c2 :: rest) = true :=
      validGroups_of_hex (c2 :: rest) (fun c hc => h c (List.mem_cons_of_mem c1 hc))
    simp [validGroups, hne, h1, hr]

/-- Members of a valid group sequence are hex digits or underscores. -/
theorem mem_of_validGroups : ∀ l : List Nat, validGroups l = true →
    ∀ c ∈ l, isHexDigitB c = true ∨ c = 95
  | [] => fun _ c hc => absurd hc (List.not_mem_nil c)
  | [a] => fun h c hc => by
    simp only [validGroups] at h
    simp only [List.mem_singleton] at hc
    subst hc; exact Or.inl h
  | c1 :: c2 :: rest => fun h c hc => by
    by_cases h95 : c1 = 95
    · subst h95
      rw [validGroups, if_pos rfl, Bool.and_eq_true] at h
      rcases List.mem_cons.1 hc with rfl | hc2
      · exact Or.inr rfl
      rcases List.mem_cons.1 hc2 with rfl | hc3
      · exact Or.inl h.1
      · exact mem_of_validGroups rest h.2 c hc3
    · rw [validGroups, if_neg h95, Bool.and_eq_true] at h
      rcases List.mem_cons.1 hc with rfl | hc2
      · exact Or.inl h.1
      · exact mem_of_validGroups (c2 :: rest) h.2 c hc2

/-- A group sequence containing a byte that is neither hex nor an
underscore is invalid. -/
theorem validGroups_eq_false {l : List Nat} {c : Nat} (hc : c ∈ l)
    (hhex : isHexDigitB c = false) (h95 : c ≠ 95) : validGroups l = false := by
  by_contra hne
  rcases mem_of_validGroups l (by revert hne; cases validGroups l <;> simp) c hc with h | h
  · rw [h] at hhex; cases hhex
  · exact h95 h

/-- Underscore-skipping and plain base-16 folds agree on underscore-free
input. -/
theorem hexDigits_foldl_eq : ∀ l : List Nat, ∀ acc : Nat, (∀ c ∈ l, c ≠ 95) →
    List.foldl (fun acc c => if c = 95 then acc else acc * 16 + hexVal c) acc l
      = List.foldl (fun acc c => 16 * acc + hexVal c) acc l
  | [], _, _ => rfl
  | a :: t, acc, h => by
    have ha : ¬(a = 95) := h a (by simp)
    simp only [List.foldl_cons, if_neg ha, Nat.mul_comm acc 16]
    exact hexDigits_foldl_eq t _ (fun c hc => h c (List.mem_cons_of_mem a hc))

/-- On a run of hex digits the source's digit fold equals the plain
base-16 value. -/
theorem hexDigitsVal_eq_spec (l : List Nat) (h : ∀ c ∈ l, isHexDigitB c = true) :
    hexDigitsVal l = hexValueSpec l := by
  unfold hexDigitsVal hexValueSpec
  exact hexDigits_foldl_eq l 0 (fun c hc e => by
    have hx := h c hc; rw [e] at hx; exact absurd hx (by decide))

/-- On a nonempty run of hex digits, `_parse_int` succeeds with the
base-16 value. -/
theorem parse_int_all_hex : ∀ l : List Nat, l ≠ [] →
    (∀ c ∈ l, isHexDigitB c = true) →
    _parse_int l = some ((hexValueSpec l : Nat) : Int) := by
  intro l hne h
  have hany : l.any (fun c => decide (128 ≤ c)) = false := by
    rw [List.any_eq_false]
    intro x hx
    have := hex_ranges.1 (h x hx)
    simp
    omega
  have hstrip : stripPySpace l = l :=
    stripPySpace_eq_self l (fun c hc => hex_not_space (h c hc))
  obtain ⟨c1, rest, rfl⟩ := List.exists_cons_of_ne_nil hne
  have h1 := h c1 (by simp)
  have hb1 := hex_ranges.1 h1
  have hsplit : splitSign (c1 :: rest) = (1, c1 :: rest) := by
    apply splitSign_eq_self <;> simp <;> omega
  have htag : ¬((c1 :: rest).take 2 = [48, 120] ∨ (c1 :: rest).take 2 = [48, 88]) := by
    cases rest with
    | nil => simp
    | cons c2 r2 =>
      have hb2 := hex_ranges.1 (h c2 (by simp))
      simp
      omega
  have hvd : validDigitPart (c1 :: rest) = true := by
    rw [validDigitPart, Bool.and_eq_true]
    exact ⟨h1, validGroups_of_hex rest (fun c hc => h c (List.mem_cons_of_mem c1 hc))⟩
  rw [_parse_int, if_neg (by rw [hany]; exact Bool.false_ne_true)]
  simp only [pyInt16, hstrip, hsplit]
  rw [if_neg htag, if_pos hvd, one_mul, hexDigitsVal_eq_spec _ h]

/-- An input containing a byte that is neither a hex digit nor one of the
extra characters Python's `int` accepts makes `_parse_int` fail. -/
theorem parse_int_none_of_bad_char : ∀ (l : List Nat) (c : Nat), c ∈ l →
    isHexDigitB c = false → pyIntExtraChar c = false → _parse_int l = none := by
  intro l c hcl hhex hextra
  by_cases h128 : l.any (fun x => decide (128 ≤ x)) = true
  · rw [_parse_int, if_pos h128]
  · have hany : l.any (fun x => decide (128 ≤ x)) = false :=
      Bool.eq_false_iff.2 h128
    have hext : isSpace c = false ∧ c ≠ 43 ∧ c ≠ 45 ∧ c ≠ 95 ∧ c ≠ 120 ∧ c ≠ 88 := by
      simp [pyIntExtraChar] at hextra
      tauto
    have hc48 : c ≠ 48 := by
      intro e; rw [e] at hhex; exact absurd hhex (by decide)
    have hc1 : c ∈ stripPySpace l := mem_stripPySpace l c hcl hext.1
    have hc2 : c ∈ (splitSign (stripPySpace l)).2 :=
      mem_splitSign _ c hc1 hext.2.2.1 hext.2.1
    rw [_parse_int, if_neg (by rw [hany]; exact Bool.false_ne_true)]
    simp only [pyInt16]
    set u := (splitSign (stripPySpace l)).2 with hu
    by_cases htag : u.take 2 = [48, 120] ∨ u.take 2 = [48, 88]
    · rw [if_pos htag]
      have hcr : c ∈ u.drop 2 := by
        have hud : u.take 2 ++ u.drop 2 = u := List.take_append_drop 2 u
        rcases htag with ht | ht
        · rw [← hud, ht] at hc2
          rcases List.mem_append.1 hc2 with hm | hm
          · simp at hm
            rcases hm with e | e
            · exact absurd e hc48
            · exact absurd e hext.2.2.2.2.1
          · exact hm
        · rw [← hud, ht] at hc2
          rcases List.mem_append.1 hc2 with hm | hm
          · simp at hm
            rcases hm with e | e
            · exact absurd e hc48
            · exact absurd e hext.2.2.2.2.2
          · exact hm
      have hvg : validGroups (u.drop 2) = false :=
        validGroups_eq_false hcr hhex hext.2.2.2.1
      rw [if_neg]
      rw [validAfterHexTag, hvg, Bool.and_false]
      exact Bool.false_ne_true
    · rw [if_neg htag]
      have hvd : validDigitPart u = false := by
        cases hu2 : u with
        | nil => rfl
        | cons a t =>
          rw [hu2] at hc2
          rcases List.mem_cons.1 hc2 with rfl | h2
          · rw [validDigitPart, hhex, Bool.false_and]
          · rw [validDigitPart,
              validGroups_eq_false h2 hhex hext.2.2.2.1, Bool.and_false]
      rw [if_neg]
      rw [hvd]
      exact Bool.false_ne_true

/-- Python's `:02d` format and the spec's 2-digit zero-padded decimal
agree on [0, 99]. -/
theorem format02d_eq_pad2dec : ∀ a : Nat, a < 100 → format02d a = pad2dec a := by
  decide

/-- Base-16 value of a two-digit run. -/
theorem hexValueSpec_pair (c1 c2 : Nat) :
    hexValueSpec [c1, c2] = 16 * hexVal c1 + hexVal c2 := by
  simp [hexValueSpec]

/-- Repacking the 8 Python-extracted low bits of a byte value recovers
the value. -/
theorem repack_pyBit : ∀ m : Nat, m < 256 →
    repackLSB (pyBit m 0, pyBit m 1, pyBit m 2, pyBit m 3,
      pyBit m 4, pyBit m 5, pyBit m 6, pyBit m 7) = m := by
  decide

/-- Building the field list of `read_buffer` raises `AttributeError` on
the very first `buffer.temperature_2_colour` access. -/
theorem buildBufferFields_err :
    buildBufferFields = Except.error (PyError.attributeError "temperature_2_colour") := by
  rfl

/-!  Claim theorems. -/

/-- C7: for every address in [0,99] and every command, the encoded
request line is the zero-padded 2-digit decimal address, then the
command's fixed token, then the optional argument verbatim, then the
carriage-return terminator; in particular address 3 with the
serial-number command and no argument encodes to exactly the line
`03sn\r`. -/
theorem command_line_format :
    (∀ a : Nat, a < 100 → ∀ (cmd : Command) (data : Option String),
      commandLine a cmd data = pad2dec a ++ cmd.value ++ data.getD "" ++ "\r") ∧
    commandLine 3 Command.SERIAL_NUMBER Option.none = "03sn\r" := by
  constructor
  · intro a ha cmd data
    rw [commandLine, format02d_eq_pad2dec a ha]
  · rfl

/-- Witness for C7 at address 42, buffer-mode command, argument "02". -/
theorem command_line_format_witness :
    commandLine 42 Command.BUFFER_MODE (some "02")
      = pad2dec 42 ++ Command.BUFFER_MODE.value ++ (some "02").getD "" ++ "\r" :=
  command_line_format.1 42 (by decide) Command.BUFFER_MODE (some "02")

/-- C4 counterexample: encoding with address 100 does not fail — no
address-range check exists.  The line is formatted with the 3-digit
decimal address `100`, it is written to the transport, and the command
round-trip returns the device's answer. -/
theorem address_100_encodes_without_error :
    commandLine 100 Command.SERIAL_NUMBER Option.none = "100sn\r" ∧
    (str_command (Metis.mk 100 [] false) Command.SERIAL_NUMBER Option.none
        [52, 50, 13]).1 = Except.ok [52, 50] ∧
    ((str_command (Metis.mk 100 [] false) Command.SERIAL_NUMBER Option.none
        [52, 50, 13]).2).written = [[13], strToBytes "100sn\r"] := by
  exact ⟨rfl, rfl, rfl⟩

/-- C4 amended: command encoding performs no address validation.  With
address 100 the line is the 3-digit decimal `100` followed by the token
and terminator, that line is written to the transport (so I/O does
occur), and the only possible failure of the round trip is the device's
own rejection answer — there is no address-out-of-range error. -/
theorem address_100_encoding_amended :
    ∀ (cmd : Command) (w : List (List Nat)) (d : Bool) (line : List Nat),
      commandLine 100 cmd Option.none = "100" ++ cmd.value ++ "\r" ∧
      ((str_command (Metis.mk 100 w d) cmd Option.none line).2).written
        = (w ++ [[13]]) ++ [strToBytes (commandLine 100 cmd Option.none)] ∧
      ((str_command (Metis.mk 100 w d) cmd Option.none line).1
          = Except.ok line.dropLast ∨
        (str_command (Metis.mk 100 w d) cmd Option.none line).1
          = Except.error (PyError.metisException "Error sending command")) := by
  intro cmd w d line
  have hascii : asciiOnly (commandLine 100 cmd Option.none) = true := by
    cases cmd <;> rfl
  refine ⟨by cases cmd <;> rfl, ?_, ?_⟩
  · simp [str_command, Metis.mk, hascii]
    split <;> rfl
  · by_cases hno : line.dropLast = [110, 111]
    · right
      simp [str_command, Metis.mk, hascii, hno]
    · left
      simp [str_command, Metis.mk, hascii, hno]

/-- C5 counterexample: the input `b"+64"` contains the byte `'+'` (43),
which is not a hex digit, yet `_parse_int` succeeds with 100 — Python's
`int(_, 16)` accepts an optional sign, so failure is not triggered by
every non-hex byte. -/
theorem parse_int_accepts_plus_sign :
    isHexDigitB 43 = false ∧ _parse_int [43, 54, 52] = some 100 := by
  exact ⟨rfl, rfl⟩

/-- C5 amended: `_parse_int` fails on the empty input; on a nonempty
input of hex digits only it succeeds with the case-insensitive base-16
value; and it fails on any input containing a byte that is neither a hex
digit nor one of the extra characters Python's `int` parsing accepts
(ASCII whitespace, `+`, `-`, `_`, `x`, `X`). -/
theorem parse_int_hex_semantics_amended :
    _parse_int [] = Option.none ∧
    (∀ l : List Nat, l ≠ [] → (∀ c ∈ l, isHexDigitB c = true) →
      _parse_int l = some ((hexValueSpec l : Nat) : Int)) ∧
    (∀ (l : List Nat) (c : Nat), c ∈ l → isHexDigitB c = false →
      pyIntExtraChar c = false → _parse_int l = Option.none) := by
  exact ⟨rfl, parse_int_all_hex, parse_int_none_of_bad_char⟩

/-- Witness for C5 amended: the all-hex input `b"64"` parses to its
base-16 value, and the input `b"g4"` (a non-hex, non-extra byte) fails. -/
theorem parse_int_hex_semantics_amended_witness :
    _parse_int [54, 52] = some ((hexValueSpec [54, 52] : Nat) : Int) ∧
    _parse_int [103, 52] = Option.none := by
  exact ⟨parse_int_hex_semantics_amended.2.1 [54, 52] (by decide) (by decide),
    parse_int_hex_semantics_amended.2.2 [103, 52] 103 (by simp) (by decide)
      (by decide)⟩

/-- C6: whenever the device's response line is the literal token `no`
(followed by the terminator), the command round trip raises
`MetisException` — both at the string level and for integer commands,
where the rejection error propagates and `_parse_int` is never reached. -/
theorem rejection_token_raises :
    ∀ (st : MetisState) (cmd : Command) (data : Option String),
      asciiOnly (commandLine st.address cmd data) = true →
      (str_command st cmd data [110, 111, 13]).1
          = Except.error (PyError.metisException "Error sending command") ∧
      (int_command st cmd data [110, 111, 13]).1
          = Except.error (PyError.metisException "Error sending command") := by
  intro st cmd data h
  have hs : (str_command st cmd data [110, 111, 13]).1
      = Except.error (PyError.metisException "Error sending command") := by
    simp [str_command, h]
  refine ⟨hs, ?_⟩
  rw [int_command]
  rcases he : str_command st cmd data [110, 111, 13] with ⟨r, st'⟩
  rw [he] at hs
  simp at hs
  rw [hs]

/-- Witness for C6 at a fresh device with address 0 and the
serial-number command. -/
theorem rejection_token_raises_witness :
    (str_command (Metis.mk 0 [] false) Command.SERIAL_NUMBER Option.none
        [110, 111, 13]).1
      = Except.error (PyError.metisException "Error sending command") ∧
    (int_command (Metis.mk 0 [] false) Command.SERIAL_NUMBER Option.none
        [110, 111, 13]).1
      = Except.error (PyError.metisException "Error sending command") :=
  rejection_token_raises (Metis.mk 0 [] false) Command.SERIAL_NUMBER Option.none
    (by rfl)

/-- C8: for every pair of hex digit bytes, decoding with `_parse_bits`
and repacking the 8 booleans least-significant-bit first reproduces the
low byte of the `_parse_int` value of the same input. -/
theorem parse_bits_repack_low_byte :
    ∀ c1 c2 : Nat, isHexDigitB c1 = true → isHexDigitB c2 = true →
      (_parse_bits [c1, c2]).map repackLSB
        = (_parse_int [c1, c2]).map (fun i => i.toNat % 256) := by
  intro c1 c2 h1 h2
  have hall : ∀ c ∈ [c1, c2], isHexDigitB c = true := by
    intro c hc
    rcases List.mem_cons.1 hc with rfl | hc2
    · exact h1
    rcases List.mem_cons.1 hc2 with rfl | hc3
    · exact h2
    · cases hc3
  have hp := parse_int_all_hex [c1, c2] (by simp) hall
  have hlt : hexValueSpec [c1, c2] < 256 := by
    rw [hexValueSpec_pair]
    have := hexVal_lt_16 h1
    have := hexVal_lt_16 h2
    omega
  rw [_parse_bits, hp]
  simp only [Option.map_some']
  rw [repack_pyBit _ hlt]
  simp [Nat.mod_eq_of_lt hlt]

/-- Witness for C8 at the hex pair `b"a5"`. -/
theorem parse_bits_repack_low_byte_witness :
    (_parse_bits [97, 53]).map repackLSB
      = (_parse_int [97, 53]).map (fun i => i.toNat % 256) :=
  parse_bits_repack_low_byte 97 53 (by decide) (by decide)

/-- C1 (code bug): on the 4-byte mode-0 payload `b"0064"`, `read_buffer`
does not produce a record with `measured_temperature = 10.0`; it raises
`AttributeError` while constructing the field list, because
`buffer.temperature_2_colour` is an attribute access on the `BufferData`
class, whose body holds only annotations. -/
theorem read_buffer_mode0_payload_raises :
    (read_buffer (Metis.mk 0 [] false) [48, 48, 54, 52, 13]).1
      = Except.error (PyError.attributeError "temperature_2_colour") := by
  rfl

/-- C2 (code bug): on a truncated 8-byte payload `b"00640064"` covering
only the first two fields, `read_buffer` does not stop gracefully with
the remaining fields absent; it raises `AttributeError` while
constructing the field list, before any field is consumed. -/
theorem read_buffer_truncated_payload_raises :
    (read_buffer (Metis.mk 0 [] false)
        [48, 48, 54, 52, 48, 48, 54, 52, 13]).1
      = Except.error (PyError.attributeError "temperature_2_colour") := by
  rfl

/-- C3 (code bug): on a zero-length payload (a response line that is the
bare terminator), `read_buffer` does not return an all-absent record; it
raises `AttributeError` while constructing the field list. -/
theorem read_buffer_empty_payload_raises :
    (read_buffer (Metis.mk 0 [] false) [13]).1
      = Except.error (PyError.attributeError "temperature_2_colour") := by
  rfl

/-- C9: for every device state and every response line, `read_buffer`
raises some exception and never returns a decoded record; the name
`temperature_2_colour` accessed by the field-list construction is not an
attribute of the `BufferData` class (its body has only annotations), so
building the field list itself already fails with `AttributeError`. -/
theorem read_buffer_never_returns :
    (∀ (st : MetisState) (line : List Nat),
      ∃ e, (read_buffer st line).1 = Except.error e) ∧
    BufferData.classAttrs.contains "temperature_2_colour" = false ∧
    "temperature_2_colour" ∈ BufferData.declaredFieldNames ∧
    buildBufferFields
      = Except.error (PyError.attributeError "temperature_2_colour") := by
  refine ⟨?_, rfl, by simp [BufferData.declaredFieldNames], buildBufferFields_err⟩
  intro st line
  by_cases hascii :
      asciiOnly (commandLine st.address Command.BUFFER_READ Option.none) = true
  · by_cases hno : line.dropLast = [110, 111]
    · exact ⟨PyError.metisException "Error sending command",
        by simp [read_buffer, str_command, hascii, hno]⟩
    · exact ⟨PyError.attributeError "temperature_2_colour",
        by simp [read_buffer, str_command, hascii, hno, buildBufferFields_err]⟩
  · exact ⟨PyError.unicodeEncodeError,
      by simp [read_buffer, str_command, hascii]⟩

/-- C10: constructing the device facade writes a single carriage-return
byte to the transport immediately — starting from an empty write log the
log after construction is exactly `[b'\r']` — and any command issued
afterwards appends its line after that first `b'\r'` write. -/
theorem metis_init_writes_terminator_first :
    ∀ (a : Nat) (w : List (List Nat)) (d : Bool),
      (Metis.mk a w d).written = w ++ [[13]] ∧
      (Metis.mk a [] d).written = [[13]] ∧
      ∀ (cmd : Command) (line : List Nat),
        ((str_command (Metis.mk a [] d) cmd Option.none line).2).written.head?
          = some [13] := by
  intro a w d
  refine ⟨rfl, rfl, ?_⟩
  intro cmd line
  by_cases hascii : asciiOnly (commandLine a cmd Option.none) = true
  · by_cases hno : line.dropLast = [110, 111] <;>
      simp [str_command, Metis.mk, hascii, hno]
  · simp [str_command, Metis.mk, hascii]
